import Mathlib

/-!
Shallow embedding of the monitoring/control engine of
src/HMI_View_Selector_v5.3.1.py (the revision all claims reference).

Conventions:
- 16-bit register words are Nat (pymodbus returns values in [0, 65536)).
- Wall-clock timestamps (time.time()) are rationals.
- Device I/O results are oracle inputs: a read of a register is an
  Option Nat (none models result.isError()), a write outcome is a Bool
  (true models not result.isError()).
- Tkinter display updates are modelled as an explicit list of update
  actions in the order the source dispatches them via self.root.after.
-/

namespace HMI

/-- Severity of the battery metric as rendered by the monitor loop:
lines 3438-3456 flash a low-battery warning or show the normal style. -/
inductive BatteryBand where
  | lowWarning
  | normal
deriving DecidableEq, Repr

/-- Embeds the battery classification of monitor_unit (v5.3.1 lines
3438-3456): the warning path is taken exactly when battery_value < 50. -/
def classifyBattery (batteryValue : Nat) : BatteryBand :=
  if batteryValue < 50 then BatteryBand.lowWarning else BatteryBand.normal

/-- Embeds set_turbo_threshold (v5.3.1 lines 2313-2331).  The argument
parsed is the outcome of the Python int() call on the entry text (none
models the ValueError branch).  Returns the stored threshold after the
call and whether the call succeeded (the success message-box path). -/
def set_turbo_threshold (parsed : Option Int) (oldThreshold : Int) : Int × Bool :=
  match parsed with
  | none => (oldThreshold, false)
  | some v =>
      if 950 ≤ v ∧ v ≤ 1050 then (v, true) else (oldThreshold, false)

/-- Network operations issued over the Modbus transport, in order. -/
inductive NetOp where
  | connect
  | writeRegister (addr : Nat) (value : Nat)
  | close
deriving DecidableEq, Repr

/-- Embeds Python str.isdigit for the ASCII strings the entry widget
yields: nonempty and every character a decimal digit. -/
def pyIsDigit (s : List Char) : Bool :=
  !s.isEmpty && s.all Char.isDigit

/-- Value of a decimal digit string, as computed by Python int() on a
string that passed isdigit. -/
def digitsToNat (s : List Char) : Nat :=
  s.foldl (fun acc c => acc * 10 + (c.toNat - 48)) 0

/-- Embeds send_register_value (v5.3.1 lines 4066-4117): validate the
entry text (isdigit, then the 50..100 range check) before any network
activity; on success connect, write the fixed arm register 400509 := 3,
and only if that write reports success write the value to the target
register; the client is closed on every path that opened it.
The oracle inputs connectOk and armOk model client.connect() and
(not result_509.isError()).  Returns the network operations issued. -/
def send_register_value (valueStr : List Char) (registerOffset : Nat)
    (connectOk armOk : Bool) : List NetOp :=
  if pyIsDigit valueStr = false then []
  else
    let value := digitsToNat valueStr
    if value < 50 ∨ 100 < value then []
    else
      NetOp.connect ::
        (if connectOk then
          NetOp.writeRegister 509 3 ::
            (if armOk then
              [NetOp.writeRegister registerOffset value, NetOp.close]
             else [NetOp.close])
         else [NetOp.close])

/-- C7: the battery metric is classified as a low-battery warning exactly
when its value is strictly below 50, and battery = 50 is Normal. -/
theorem battery_low_iff_lt_50 :
    (∀ b : Nat, classifyBattery b = BatteryBand.lowWarning ↔ b < 50) ∧
      classifyBattery 50 = BatteryBand.normal := by
  constructor
  · intro b
    unfold classifyBattery
    by_cases h : b < 50 <;> simp [h]
  · decide

/-- Witness for battery_low_iff_lt_50 at battery values 49 and 50. -/
theorem battery_low_iff_lt_50_witness :
    classifyBattery 49 = BatteryBand.lowWarning ∧
      classifyBattery 50 = BatteryBand.normal :=
  ⟨(battery_low_iff_lt_50.1 49).2 (by decide), battery_low_iff_lt_50.2⟩

/-- C4: setting the auto-control threshold succeeds exactly for integer
inputs v with 950 <= v <= 1050 (the stored threshold then becomes v);
on any other input the call fails and the stored threshold is unchanged.
The function performs no network operation on any path (the source body
only touches configuration, the message box and the activity log). -/
theorem set_turbo_threshold_range (parsed : Option Int) (old : Int) :
    ((set_turbo_threshold parsed old).2 = true ↔
      ∃ v, parsed = some v ∧ 950 ≤ v ∧ v ≤ 1050) ∧
    ((set_turbo_threshold parsed old).2 = false →
      (set_turbo_threshold parsed old).1 = old) ∧
    (∀ v, parsed = some v → 950 ≤ v → v ≤ 1050 →
      (set_turbo_threshold parsed old).1 = v) := by
  refine ⟨?_, ?_, ?_⟩
  · cases parsed with
    | none => simp [set_turbo_threshold]
    | some v =>
        by_cases hr : 950 ≤ v ∧ v ≤ 1050
        · simp only [set_turbo_threshold, if_pos hr]
          exact ⟨fun _ => ⟨v, rfl, hr.1, hr.2⟩, fun _ => trivial⟩
        · simp only [set_turbo_threshold, if_neg hr]
          constructor
          · intro h
            simp at h
          · rintro ⟨v', hv', h1, h2⟩
            rw [Option.some_inj] at hv'
            subst hv'
            exact absurd ⟨h1, h2⟩ hr
  · cases parsed with
    | none => intro _; rfl
    | some v =>
        by_cases hr : 950 ≤ v ∧ v ≤ 1050
        · intro h
          simp [set_turbo_threshold, hr] at h
        · intro _
          simp [set_turbo_threshold, hr]
  · rintro v rfl h1 h2
    simp [set_turbo_threshold, h1, h2]

/-- Witness for set_turbo_threshold_range: input 1000 is accepted, input
1051 is rejected leaving the old threshold 1000 in place. -/
theorem set_turbo_threshold_range_witness :
    (set_turbo_threshold (some 1000) 950).2 = true ∧
      (set_turbo_threshold (some 1051) 1000).1 = 1000 := by
  constructor
  · exact (set_turbo_threshold_range (some 1000) 950).1.2
      ⟨1000, rfl, by decide, by decide⟩
  · exact (set_turbo_threshold_range (some 1051) 1000).2.1 (by decide)

/-- C5: the primary value write is transmitted iff the entry text parses
as an integer in [50, 100], the connect succeeded and the arm write
(register 509 := 3) reported success; an in-range command issues exactly
the sequence connect, arm write, value write, close; a parsed but
out-of-range value causes no network operation at all. -/
theorem send_register_value_two_phase (s : List Char) (off : Nat)
    (cOk aOk : Bool) (hoff : off ≠ 509) :
    ((∃ v, NetOp.writeRegister off v ∈ send_register_value s off cOk aOk) ↔
      (pyIsDigit s = true ∧ 50 ≤ digitsToNat s ∧ digitsToNat s ≤ 100 ∧
        cOk = true ∧ aOk = true)) ∧
    ((pyIsDigit s = true ∧ (digitsToNat s < 50 ∨ 100 < digitsToNat s)) →
      send_register_value s off cOk aOk = []) ∧
    ((pyIsDigit s = true ∧ 50 ≤ digitsToNat s ∧ digitsToNat s ≤ 100 ∧
        cOk = true ∧ aOk = true) →
      send_register_value s off cOk aOk =
        [NetOp.connect, NetOp.writeRegister 509 3,
         NetOp.writeRegister off (digitsToNat s), NetOp.close]) := by
  refine ⟨⟨?_, ?_⟩, ?_, ?_⟩
  · rintro ⟨v, hv⟩
    unfold send_register_value at hv
    by_cases hd : pyIsDigit s = false
    · simp [hd] at hv
    · rw [if_neg hd] at hv
      simp only [Bool.not_eq_false] at hd
      by_cases hr : digitsToNat s < 50 ∨ 100 < digitsToNat s
      · simp only [hr, if_true] at hv
        exact absurd hv (List.not_mem_nil _)
      · simp only [hr, if_false] at hv
        push_neg at hr
        refine ⟨hd, hr.1, hr.2, ?_⟩
        cases cOk with
        | false => simp at hv
        | true =>
            cases aOk with
            | false =>
                simp at hv
                exact absurd hv.1 hoff
            | true => exact ⟨rfl, rfl⟩
  · rintro ⟨hd, h50, h100, rfl, rfl⟩
    refine ⟨digitsToNat s, ?_⟩
    unfold send_register_value
    rw [if_neg (by simp [hd])]
    rw [if_neg (by omega)]
    simp
  · rintro ⟨hd, hr⟩
    unfold send_register_value
    rw [if_neg (by simp [hd])]
    rw [if_pos hr]
  · rintro ⟨hd, h50, h100, rfl, rfl⟩
    unfold send_register_value
    rw [if_neg (by simp [hd])]
    rw [if_neg (by omega)]
    rfl

/-- Witness for send_register_value_two_phase: entry text 75 to register
offset 1212 with both connect and arm succeeding issues the full
four-operation sequence, and entry text 49 issues nothing. -/
theorem send_register_value_two_phase_witness :
    send_register_value [Char.ofNat 55, Char.ofNat 53] 1212 true true =
      [NetOp.connect, NetOp.writeRegister 509 3,
       NetOp.writeRegister 1212 75, NetOp.close] ∧
    send_register_value [Char.ofNat 52, Char.ofNat 57] 1212 true true = [] := by
  constructor
  · exact (send_register_value_two_phase [Char.ofNat 55, Char.ofNat 53] 1212
      true true (by decide)).2.2 ⟨by decide, by decide, by decide, rfl, rfl⟩
  · exact (send_register_value_two_phase [Char.ofNat 52, Char.ofNat 57] 1212
      true true (by decide)).2.1 ⟨by decide, by decide⟩

/-- One poll cycle's inputs to the auto-control block of monitor_unit
(v5.3.1 lines 3467-3491): the time.time() value, the turbo temperature
the comparison reads, and whether the fan write would report success. -/
structure AutoControlInput where
  time : ℚ
  turboTemp : Nat
  writeOk : Bool
deriving DecidableEq, Repr

/-- Embeds the auto-control block of monitor_unit (v5.3.1 lines
3467-3491).  When auto-control is active and turbo_temp >=
turbo_temp_threshold, and current_time - last_activation >= 10.0, the
code issues the single write of 100 to register 401000; it records
last_fan_activation[ip] := current_time only when that write reports
success (the not fan_result.isError() branch), otherwise the entry is
left unchanged.  Returns the writes issued and the updated
last_fan_activation entry for the unit's ip. -/
def autoControlStep (autoControlActive : Bool) (threshold : Nat)
    (lastActivation : ℚ) (inp : AutoControlInput) : List NetOp × ℚ :=
  if autoControlActive = true ∧ threshold ≤ inp.turboTemp then
    if 10 ≤ inp.time - lastActivation then
      ([NetOp.writeRegister 1000 100],
       if inp.writeOk then inp.time else lastActivation)
    else ([], lastActivation)
  else ([], lastActivation)

/-- Folds autoControlStep over the poll cycles of one unit's monitor
loop, threading last_fan_activation, and collects the cycles on which a
write of 100 to register 401000 was issued. -/
def autoControlWrites (active : Bool) (threshold : Nat) :
    ℚ → List AutoControlInput → List AutoControlInput
  | _, [] => []
  | last, inp :: rest =>
      let r := autoControlStep active threshold last inp
      if r.1.isEmpty then autoControlWrites active threshold r.2 rest
      else inp :: autoControlWrites active threshold r.2 rest

/-- Unfolding description of one step of autoControlWrites. -/
theorem autoControlWrites_cons (active : Bool) (threshold : Nat)
    (last : ℚ) (inp : AutoControlInput) (rest : List AutoControlInput) :
    autoControlWrites active threshold last (inp :: rest) =
      if active = true ∧ threshold ≤ inp.turboTemp ∧ 10 ≤ inp.time - last
      then inp :: autoControlWrites active threshold
        (if inp.writeOk = true then inp.time else last) rest
      else autoControlWrites active threshold last rest := by
  by_cases h1 : active = true ∧ threshold ≤ inp.turboTemp
  · by_cases h2 : 10 ≤ inp.time - last
    · simp [autoControlWrites, autoControlStep, h1.1, h1.2, h2]
    · simp [autoControlWrites, autoControlStep, h1.1, h1.2, h2]
  · have h1' : ¬(active = true ∧ threshold ≤ inp.turboTemp ∧
        10 ≤ inp.time - last) := by tauto
    simp only [autoControlWrites, autoControlStep, if_neg h1, if_neg h1']
    rfl

/-- Every cycle on which a write is issued lies at least 10 seconds
after the last_fan_activation value the loop started from. -/
theorem autoControlWrites_time_lb (active : Bool) (threshold : Nat) :
    ∀ (trace : List AutoControlInput) (last : ℚ) (w : AutoControlInput),
      w ∈ autoControlWrites active threshold last trace →
        last + 10 ≤ w.time := by
  intro trace
  induction trace with
  | nil => intro last w hw; simp [autoControlWrites] at hw
  | cons inp rest ih =>
      intro last w hw
      rw [autoControlWrites_cons] at hw
      by_cases hc : active = true ∧ threshold ≤ inp.turboTemp ∧
          10 ≤ inp.time - last
      · rw [if_pos hc] at hw
        rcases List.mem_cons.1 hw with rfl | hw'
        · linarith [hc.2.2]
        · have hlast : last ≤ (if inp.writeOk = true then inp.time else last) := by
            by_cases hok : inp.writeOk = true
            · rw [if_pos hok]; linarith [hc.2.2]
            · rw [if_neg hok]
          have := ih (if inp.writeOk = true then inp.time else last) w hw'
          linarith
      · rw [if_neg hc] at hw
        exact ih last w hw

/-- C1 (amended): any two write commands whose device response reports
success are at least 10 seconds apart, for every unit, every threshold,
every starting control state and every poll trace — even one on which
the trigger condition holds at every cycle.  (Write attempts whose
response reports an error do not re-arm the cooldown; see the
counterexample for the claim as stated.) -/
theorem autoControl_success_writes_cooldown (active : Bool)
    (threshold : Nat) (last : ℚ) (trace : List AutoControlInput) :
    List.Pairwise (fun x y => x.time + 10 ≤ y.time)
      ((autoControlWrites active threshold last trace).filter
        (fun w => w.writeOk)) := by
  induction trace generalizing last with
  | nil => simp [autoControlWrites]
  | cons inp rest ih =>
      rw [autoControlWrites_cons]
      by_cases hc : active = true ∧ threshold ≤ inp.turboTemp ∧
          10 ≤ inp.time - last
      · rw [if_pos hc]
        by_cases hok : inp.writeOk = true
        · rw [List.filter_cons_of_pos (by simp [hok])]
          refine List.pairwise_cons.2 ⟨?_, ih _⟩
          intro w hw
          have hw' := List.mem_of_mem_filter hw
          have hlb := autoControlWrites_time_lb active threshold rest
            (if inp.writeOk = true then inp.time else last) w hw'
          rw [if_pos hok] at hlb
          linarith
        · rw [List.filter_cons_of_neg (by simp [hok])]
          exact ih _
      · rw [if_neg hc]
        exact ih _

/-- Counterexample to C1 as stated: with auto-control active, threshold
1050, an initial last_fan_activation of 0 and a device that rejects the
fan write (fan_result.isError()), the trigger condition holding on two
consecutive poll cycles at times 100 and 101 issues a write-back command
on both cycles — two commands to the same device within one 10-second
cooldown window. -/
theorem autoControl_two_writes_in_one_window :
    (autoControlWrites true 1050 0
        [AutoControlInput.mk 100 2000 false,
         AutoControlInput.mk 101 2000 false]).map (fun w => w.time)
      = [100, 101] ∧ (101 : ℚ) - 100 < 10 := by
  constructor
  · rw [autoControlWrites_cons,
      if_pos (⟨rfl, by norm_num, by norm_num⟩ :
        true = true ∧ 1050 ≤ 2000 ∧ 10 ≤ (100 : ℚ) - 0)]
    rw [show (if false = true then (100 : ℚ) else 0) = 0 from rfl]
    rw [autoControlWrites_cons,
      if_pos (⟨rfl, by norm_num, by norm_num⟩ :
        true = true ∧ 1050 ≤ 2000 ∧ 10 ≤ (101 : ℚ) - 0)]
    simp [autoControlWrites]
  · norm_num

/-- C2 (amended): when the trigger fires and the cooldown has elapsed,
exactly one write of 100 to command register 1000 is issued in that
cycle, and the activation timestamp is recorded only when that write
reports success: on success the stored last-activation becomes the
current time, on failure it is left unchanged (so the next natural poll
cycle will re-evaluate and retry). -/
theorem autoControl_timestamp_only_on_success (active : Bool)
    (threshold : Nat) (last : ℚ) (inp : AutoControlInput)
    (hactive : active = true) (htrig : threshold ≤ inp.turboTemp)
    (hcool : 10 ≤ inp.time - last) :
    autoControlStep active threshold last inp
      = ([NetOp.writeRegister 1000 100],
         if inp.writeOk then inp.time else last) := by
  unfold autoControlStep
  rw [if_pos ⟨hactive, htrig⟩, if_pos hcool]

/-- Witness for autoControl_timestamp_only_on_success: a triggered cycle
at time 42 with a failing write keeps the stored timestamp at 7. -/
theorem autoControl_timestamp_only_on_success_witness :
    autoControlStep true 1050 7 (AutoControlInput.mk 42 1980 false)
      = ([NetOp.writeRegister 1000 100], 7) := by
  have h := autoControl_timestamp_only_on_success true 1050 7
    (AutoControlInput.mk 42 1980 false) rfl (by decide) (by norm_num)
  simpa using h

/-- Counterexample to C2 as stated: a triggered, cooldown-elapsed cycle
at time 100 whose fan write reports an error leaves the stored
last-activation timestamp at its prior value 0 instead of recording the
activation time 100. -/
theorem autoControl_failed_write_not_recorded :
    (autoControlStep true 1050 0 (AutoControlInput.mk 100 2000 false)).2 = 0 ∧
      (0 : ℚ) ≠ 100 ∧
      (autoControlStep true 1050 0 (AutoControlInput.mk 100 2000 false)).1
        = [NetOp.writeRegister 1000 100] := by
  have h : autoControlStep true 1050 0 (AutoControlInput.mk 100 2000 false)
      = ([NetOp.writeRegister 1000 100], 0) := by
    unfold autoControlStep
    rw [if_pos (⟨rfl, by norm_num⟩ : true = true ∧ 1050 ≤ 2000),
      if_pos (by norm_num : 10 ≤ (100 : ℚ) - 0)]
    rfl
  rw [h]
  refine ⟨rfl, by norm_num, rfl⟩

/-- Transport-connection lifecycle events of one monitor_unit worker, in
program order. -/
inductive ConnEvent where
  | newClient
  | connectAttempt (ok : Bool)
  | closeClient
deriving DecidableEq, Repr

/-- Embeds the connection handling of one iteration of the monitor_unit
loop (v5.3.1 lines 3359-3603): a new ModbusTcpClient is constructed at
the top of every iteration (line 3359, with the source comment that a
new client is created each iteration), client.connect() is attempted,
and the finally block (lines 3598-3603) closes the client
unconditionally at the end of the same iteration. -/
def monitorCycleConnEvents (connectOk : Bool) : List ConnEvent :=
  [ConnEvent.newClient, ConnEvent.connectAttempt connectOk,
   ConnEvent.closeClient]

/-- Connection events of a run of n consecutive poll cycles of one
worker (the argument lists each cycle's connect outcome); no stop is
requested during the run. -/
def monitorLoopConnEvents : List Bool → List ConnEvent
  | [] => []
  | ok :: rest => monitorCycleConnEvents ok ++ monitorLoopConnEvents rest

/-- Counterexample to C3 as stated: in a two-cycle run in which both
connects succeed, the worker closes its client at the end of the first
cycle — before the second cycle and without any global stop — and the
second cycle constructs a fresh client rather than reusing the
connected one: the event trace holds a closeClient at position 2,
before the second cycle's newClient at position 3, and two newClient
events in total. -/
theorem connection_closed_between_cycles :
    monitorLoopConnEvents [true, true] =
      [ConnEvent.newClient, ConnEvent.connectAttempt true,
       ConnEvent.closeClient, ConnEvent.newClient,
       ConnEvent.connectAttempt true, ConnEvent.closeClient] ∧
    (monitorLoopConnEvents [true, true]).count ConnEvent.closeClient = 2 := by
  exact ⟨rfl, rfl⟩

/-- C3 (amended): the worker never reuses a transport connection across
poll cycles and there is no global release-all: every poll cycle
constructs a fresh client, and the finally block closes it at the end of
that same cycle, so an n-cycle run performs exactly n client
constructions and n closes, with each cycle's events being exactly
newClient, connectAttempt, closeClient in order. -/
theorem connection_per_cycle_open_close (oks : List Bool) :
    (monitorLoopConnEvents oks).count ConnEvent.newClient = oks.length ∧
    (monitorLoopConnEvents oks).count ConnEvent.closeClient = oks.length ∧
    monitorLoopConnEvents oks =
      oks.flatMap (fun ok => [ConnEvent.newClient,
        ConnEvent.connectAttempt ok, ConnEvent.closeClient]) := by
  induction oks with
  | nil => exact ⟨rfl, rfl, rfl⟩
  | cons ok rest ih =>
      refine ⟨?_, ?_, ?_⟩
      · simp only [monitorLoopConnEvents, monitorCycleConnEvents,
          List.count_append, ih.1, List.length_cons]
        simp [List.count_cons]
        omega
      · simp only [monitorLoopConnEvents, monitorCycleConnEvents,
          List.count_append, ih.2.1, List.length_cons]
        simp [List.count_cons]
        omega
      · simp only [monitorLoopConnEvents, monitorCycleConnEvents,
          List.flatMap_cons, ih.2.2]

/-- Worker thread as seen by stop_monitoring: the absolute time at which
its transport call returns and the thread exits, or none if the call
never returns. -/
structure Worker where
  exitTime : Option ℚ
deriving DecidableEq, Repr

/-- Embeds threading.Thread.is_alive at absolute time t. -/
def isAliveAt (w : Worker) (t : ℚ) : Bool :=
  match w.exitTime with
  | none => true
  | some te => decide (t < te)

/-- Embeds thread.join(1.5) started at absolute time t: returns the time
at which the join call comes back — when the thread exits, or after the
1.5-second timeout, whichever is first. -/
def joinDeadline (t : ℚ) (w : Worker) : ℚ :=
  match w.exitTime with
  | none => t + 3 / 2
  | some te => if te ≤ t + 3 / 2 then te else t + 3 / 2

/-- Embeds one iteration of the stop_monitoring thread loop (v5.3.1
lines 3328-3333): skip threads that are not alive; join a live thread
with the 1.5-second timeout and append it to active_threads if it is
still alive afterwards.  The accumulator carries the current time and
the active_threads list. -/
def stopStep (acc : ℚ × List Worker) (w : Worker) : ℚ × List Worker :=
  if isAliveAt w acc.1 then
    if isAliveAt w (joinDeadline acc.1 w)
    then (joinDeadline acc.1 w, acc.2 ++ [w])
    else (joinDeadline acc.1 w, acc.2)
  else acc

/-- Embeds stop_monitoring (v5.3.1 lines 3306-3339): if monitoring is
already inactive it returns immediately; otherwise it clears the active
flag and joins every worker in turn with a 1.5-second timeout,
collecting into active_threads the workers that did not terminate in
time (whose count line 3337 then logs).  Returns the time at which the
call returns and the collected active_threads list. -/
def stop_monitoring (active : Bool) (t0 : ℚ) (workers : List Worker) :
    ℚ × List Worker :=
  if active then workers.foldl stopStep (t0, []) else (t0, [])

/-- A worker that never exits is alive at every time. -/
theorem isAliveAt_none (w : Worker) (t : ℚ) (h : w.exitTime = none) :
    isAliveAt w t = true := by
  unfold isAliveAt
  rw [h]

/-- A live worker with a finite exit time has not reached it yet. -/
theorem lt_of_isAliveAt (w : Worker) (t te : ℚ)
    (h : isAliveAt w t = true) (hte : w.exitTime = some te) : t < te := by
  unfold isAliveAt at h
  rw [hte] at h
  exact of_decide_eq_true h

/-- The join deadline consumes at most the 1.5-second timeout. -/
theorem joinDeadline_le_timeout (t : ℚ) (w : Worker) :
    joinDeadline t w ≤ t + 3 / 2 := by
  unfold joinDeadline
  rcases hw : w.exitTime with _ | te
  · show t + 3 / 2 ≤ t + 3 / 2
    linarith
  · show (if te ≤ t + 3 / 2 then te else t + 3 / 2) ≤ t + 3 / 2
    split_ifs with h
    · exact h
    · linarith

/-- Joining a live worker never moves time backwards. -/
theorem le_joinDeadline (t : ℚ) (w : Worker)
    (h : isAliveAt w t = true) : t ≤ joinDeadline t w := by
  unfold joinDeadline
  rcases hw : w.exitTime with _ | te
  · show t ≤ t + 3 / 2
    linarith
  · have hlt : t < te := lt_of_isAliveAt w t te h hw
    show t ≤ if te ≤ t + 3 / 2 then te else t + 3 / 2
    split_ifs <;> linarith

/-- The stop fold never moves time backwards and each joined worker
consumes at most 1.5 seconds. -/
theorem stopStep_time_bounds (acc : ℚ × List Worker) (w : Worker) :
    acc.1 ≤ (stopStep acc w).1 ∧ (stopStep acc w).1 ≤ acc.1 + 3 / 2 := by
  unfold stopStep
  split_ifs with ha h2
  · exact ⟨le_joinDeadline acc.1 w ha, joinDeadline_le_timeout acc.1 w⟩
  · exact ⟨le_joinDeadline acc.1 w ha, joinDeadline_le_timeout acc.1 w⟩
  · constructor <;> linarith

/-- Time bound for the stop fold over any worker list. -/
theorem stopFold_time_bound :
    ∀ (workers : List Worker) (acc : ℚ × List Worker),
      (workers.foldl stopStep acc).1 ≤ acc.1 + 3 / 2 * workers.length := by
  intro workers
  induction workers with
  | nil => intro acc; simp
  | cons w rest ih =>
      intro acc
      have h1 := (stopStep_time_bounds acc w).2
      have h2 := ih (stopStep acc w)
      simp only [List.foldl_cons, List.length_cons]
      push_cast
      calc (rest.foldl stopStep (stopStep acc w)).1
          ≤ (stopStep acc w).1 + 3 / 2 * rest.length := h2
        _ ≤ acc.1 + 3 / 2 + 3 / 2 * rest.length := by linarith
        _ = acc.1 + 3 / 2 * (rest.length + 1) := by ring

/-- One stop iteration keeps previously collected workers collected. -/
theorem stopStep_keeps (acc : ℚ × List Worker) (v w : Worker)
    (hw : w ∈ acc.2) : w ∈ (stopStep acc v).2 := by
  unfold stopStep
  split_ifs
  · exact List.mem_append_left _ hw
  · exact hw
  · exact hw

/-- A worker whose transport call never returns is collected when its
join times out. -/
theorem stopStep_adds_nonterminating (acc : ℚ × List Worker)
    (w : Worker) (hnone : w.exitTime = none) : w ∈ (stopStep acc w).2 := by
  unfold stopStep
  rw [if_pos (isAliveAt_none w acc.1 hnone),
    if_pos (isAliveAt_none w (joinDeadline acc.1 w) hnone)]
  exact List.mem_append_right _ (List.mem_singleton_self w)

/-- Workers already in the accumulator stay collected, and a worker that
never exits is collected when processed. -/
theorem stopFold_collects_nonterminating :
    ∀ (workers : List Worker) (acc : ℚ × List Worker),
      (∀ w, w ∈ acc.2 → w ∈ (workers.foldl stopStep acc).2) ∧
      (∀ w, w ∈ workers → w.exitTime = none →
        w ∈ (workers.foldl stopStep acc).2) := by
  intro workers
  induction workers with
  | nil =>
      intro acc
      exact ⟨fun w hw => hw, fun w hw => absurd hw (List.not_mem_nil w)⟩
  | cons v rest ih =>
      intro acc
      constructor
      · intro w hw
        simp only [List.foldl_cons]
        exact (ih (stopStep acc v)).1 w (stopStep_keeps acc v w hw)
      · intro w hw hnone
        simp only [List.foldl_cons]
        rcases List.mem_cons.1 hw with rfl | hw'
        · exact (ih (stopStep acc w)).1 w
            (stopStep_adds_nonterminating acc w hnone)
        · exact (ih (stopStep acc v)).2 w hw' hnone

/-- Every collected worker was genuinely still running after stop began:
it either never exits, or exits strictly after the reference time t0
below the fold's starting clock. -/
theorem stopFold_collected_alive (t0 : ℚ) :
    ∀ (workers : List Worker) (acc : ℚ × List Worker),
      t0 ≤ acc.1 →
      (∀ w, w ∈ acc.2 → w.exitTime = none ∨
        ∃ te, w.exitTime = some te ∧ t0 < te) →
      ∀ w, w ∈ (workers.foldl stopStep acc).2 →
        w.exitTime = none ∨ ∃ te, w.exitTime = some te ∧ t0 < te := by
  intro workers
  induction workers with
  | nil => intro acc _ hacc w hw; exact hacc w hw
  | cons v rest ih =>
      intro acc ht0 hacc w hw
      simp only [List.foldl_cons] at hw
      refine ih (stopStep acc v)
        (le_trans ht0 (stopStep_time_bounds acc v).1) ?_ w hw
      intro u hu
      unfold stopStep at hu
      split_ifs at hu with ha h2
      · rcases List.mem_append.1 hu with hu' | hu'
        · exact hacc u hu'
        · have huv : u = v := List.mem_singleton.1 hu'
          subst huv
          rcases hv : u.exitTime with _ | te
          · exact Or.inl rfl
          · have hlt : joinDeadline acc.1 u < te :=
              lt_of_isAliveAt u (joinDeadline acc.1 u) te h2 hv
            have hge : acc.1 ≤ joinDeadline acc.1 u := le_joinDeadline acc.1 u ha
            exact Or.inr ⟨te, rfl, by linarith⟩
      · exact hacc u hu
      · exact hacc u hu

/-- C9: stopping monitoring with N active workers always returns within
N times the 1.5-second per-worker join timeout of the time it started
(it never blocks indefinitely, even when some worker's transport call
never returns), every worker whose transport call never returns is
collected in the logged did-not-terminate list, and every logged worker
was genuinely still running when stop began. -/
theorem stop_monitoring_bounded (active : Bool) (t0 : ℚ)
    (workers : List Worker) :
    (stop_monitoring active t0 workers).1 ≤ t0 + 3 / 2 * workers.length ∧
    (active = true → ∀ w, w ∈ workers → w.exitTime = none →
      w ∈ (stop_monitoring active t0 workers).2) ∧
    (∀ w, w ∈ (stop_monitoring active t0 workers).2 →
      w.exitTime = none ∨ ∃ te, w.exitTime = some te ∧ t0 < te) := by
  unfold stop_monitoring
  by_cases ha : active = true
  · rw [if_pos ha]
    refine ⟨?_, ?_, ?_⟩
    · have h := stopFold_time_bound workers (t0, [])
      simpa using h
    · intro _ w hw hnone
      exact (stopFold_collects_nonterminating workers (t0, [])).2 w hw hnone
    · intro w hw
      refine stopFold_collected_alive t0 workers (t0, []) le_rfl ?_ w hw
      intro u hu
      exact absurd hu (List.not_mem_nil u)
  · rw [if_neg ha]
    refine ⟨?_, ?_, ?_⟩
    · show t0 ≤ t0 + 3 / 2 * workers.length
      have hlen : (0 : ℚ) ≤ 3 / 2 * workers.length := by positivity
      linarith
    · intro hcontra
      exact absurd hcontra ha
    · intro w hw
      exact absurd hw (List.not_mem_nil w)

/-- Witness for stop_monitoring_bounded: two workers, one exited before
the stop call at time 0, one whose transport call never returns; the
call returns by time 3 and the never-returning worker is logged. -/
theorem stop_monitoring_bounded_witness :
    (stop_monitoring true 0 [Worker.mk (some (-1)), Worker.mk none]).1
        ≤ 0 + 3 / 2 * 2 ∧
      Worker.mk none ∈
        (stop_monitoring true 0 [Worker.mk (some (-1)), Worker.mk none]).2 := by
  have h := stop_monitoring_bounded true 0
    [Worker.mk (some (-1)), Worker.mk none]
  constructor
  · have h1 := h.1
    simpa using h1
  · exact h.2.1 rfl (Worker.mk none) (by simp) rfl

/-- Value of an IEEE-754 binary32 datum as the Python monitor code
observes it after struct.unpack: a single NaN value (payload bits are
not part of the observed value), signed infinities, signed zeros, and
finite nonzero values given by sign and magnitude. -/
inductive F32 where
  | nan
  | inf (neg : Bool)
  | zero (neg : Bool)
  | finite (neg : Bool) (mag : ℚ)
deriving DecidableEq, Repr

/-- Embeds the float decoding of monitor_unit (v5.3.1 lines 3547-3551):
combined_value = (registers[0] << 16) | registers[1], then
struct.unpack of the big-endian 32-bit pattern as IEEE-754 binary32.
For 16-bit hi and lo the shift-or is hi * 65536 + lo.  The bit pattern
is split into sign, 8-bit exponent and 23-bit fraction; exponent 255
yields infinity or NaN, exponent 0 yields a signed zero or a subnormal
f * 2^-149, and a normal number is (2^23 + f) * 2^(e-150) with the
sign applied.  The pattern is split by sOfBits, eOfBits and fOfBits
below; decodeBits gives the value of the 32-bit pattern and
decodeFloat32BE applies it to the shifted-or of the register pair.
Sign bit of a 32-bit binary32 pattern: -/
def sOfBits (b : Nat) : Nat := b / 2 ^ 31

/-- Exponent field (8 bits) of a 32-bit binary32 pattern. -/
def eOfBits (b : Nat) : Nat := b / 2 ^ 23 % 2 ^ 8

/-- Fraction field (23 bits) of a 32-bit binary32 pattern. -/
def fOfBits (b : Nat) : Nat := b % 2 ^ 23

/-- Value of a 32-bit IEEE-754 binary32 pattern: exponent 255 yields an
infinity or NaN, exponent 0 a signed zero or the subnormal f * 2^-149,
and otherwise the normal value (2^23 + f) * 2^(e-150), sign applied. -/
def decodeBits (b : Nat) : F32 :=
  if eOfBits b = 255 then
    (if fOfBits b = 0 then F32.inf (decide (sOfBits b = 1)) else F32.nan)
  else if eOfBits b = 0 then
    (if fOfBits b = 0 then F32.zero (decide (sOfBits b = 1))
     else F32.finite (decide (sOfBits b = 1)) ((fOfBits b : ℚ) / 2 ^ 149))
  else
    F32.finite (decide (sOfBits b = 1))
      (((2 ^ 23 + fOfBits b : Nat) : ℚ) * 2 ^ eOfBits b / 2 ^ 150)

def decodeFloat32BE (hi lo : Nat) : F32 := decodeBits (hi * 65536 + lo)

/-- IEEE comparison x < n used by the oil-rate checks (pe_oil_value < 34):
false for NaN, true for negative infinity and negative finite values,
numeric comparison otherwise. -/
def f32LtNat (x : F32) (n : Nat) : Bool :=
  match x with
  | F32.nan => false
  | F32.inf neg => neg
  | F32.zero _ => decide ((0 : ℚ) < n)
  | F32.finite neg mag =>
      if neg then decide (-mag < (n : ℚ)) else decide (mag < (n : ℚ))

/-- Widget colors used by the 230xx branch of monitor_unit. -/
inductive Color where
  | red
  | green
  | gray
  | blue0078d4
  | darkRedD83b01
  | redFF0000
  | dark1E1E1E
  | dark2D2D2D
  | maroon800000
deriving DecidableEq, Repr

/-- Display updates dispatched via self.root.after by the 230xx branch
of monitor_unit, one constructor per widget-update call site. -/
inductive UiUpdate where
  | turboText (v : Nat)
  | turboUnknown
  | batteryShow (v : Nat) (bg : Color)
  | batteryUnknown
  | setpointText (v : Nat)
  | setpointUnknown
  | statusLightColor (c : Color)
  | controlButtonColor (c : Color)
  | frameColor (c : Color)
deriving DecidableEq, Repr

/-- Configuration the monitor loop reads from self each cycle:
maintenanceMode is (maintenance_mode_active or master_maintenance_mode)
together with the setpoint widget existing, and threshold is
turbo_temp_threshold. -/
structure CycleEnv where
  maintenanceMode : Bool
  autoControlActive : Bool
  threshold : Nat
deriving DecidableEq, Repr

/-- Device responses observed during one poll cycle of a 230xx unit:
connect outcome, each register read (none models isError()), the
time.time() value at the auto-control check and the fan-write outcome. -/
structure DeviceResponses where
  connectOk : Bool
  turbo : Option Nat
  battery : Option Nat
  setpoint : Option Nat
  time : ℚ
  writeOk : Bool
  plc : Option Nat
  control : Option Nat
  rpm : Option Nat
  envolts : Option Nat
  peOil : Option (Nat × Nat)
  gbOil : Option (Nat × Nat)
  gasPsi : Option Nat
deriving DecidableEq, Repr

/-- Python-local state of one monitor_unit worker that persists across
loop iterations: the turbo_temp local variable (none while unbound),
flash_counter, widgets bg_flash_state, last_fan_activation[ip] and the
unit's alert_acknowledged flag. -/
structure WorkerState where
  turboVar : Option Nat
  flashCounter : Nat
  bgFlashState : Bool
  lastActivation : ℚ
  acknowledged : Bool
deriving DecidableEq, Repr

/-- Outcome of one poll cycle: the display updates dispatched in order,
the register writes issued, the worker state carried to the next cycle,
and whether the per-cycle except handler ran. -/
structure CycleResult where
  updates : List UiUpdate
  writes : List NetOp
  state : WorkerState
  errored : Bool
deriving DecidableEq, Repr

/-- Turbo temperature read (lines 3429-3433): on success update the
display and rebind the turbo_temp local; on error leave both as is. -/
def turboPart (resp : DeviceResponses) (st : WorkerState) :
    List UiUpdate × Option Nat :=
  match resp.turbo with
  | some v => ([UiUpdate.turboText v], some v)
  | none => ([], st.turboVar)

/-- Battery read and low-battery flash (lines 3436-3456). -/
def batteryPart (resp : DeviceResponses) (flash : Nat) :
    List UiUpdate × Nat :=
  match resp.battery with
  | some v =>
      if v < 50 then
        if (flash + 1) % 4 < 2 then
          ([UiUpdate.batteryShow v Color.redFF0000], (flash + 1) % 4)
        else ([UiUpdate.batteryShow v Color.dark1E1E1E], (flash + 1) % 4)
      else ([UiUpdate.batteryShow v Color.dark1E1E1E], flash)
  | none => ([], flash)

/-- Setpoint readback shown only in maintenance mode (lines 3458-3464). -/
def setpointPart (env : CycleEnv) (resp : DeviceResponses) : List UiUpdate :=
  if env.maintenanceMode then
    match resp.setpoint with
    | some v => [UiUpdate.setpointText v]
    | none => []
  else []

/-- PLC status bit 2 of input register 5 and the status light
(lines 3493-3511); a failed read leaves plc_bit_set false. -/
def plcPart (resp : DeviceResponses) (flash : Nat) :
    List UiUpdate × Nat :=
  let plcBit := match resp.plc with
    | some v => decide (v &&& 4 ≠ 0)
    | none => false
  if plcBit then
    if (flash + 1) % 4 < 2 then
      ([UiUpdate.statusLightColor Color.red], (flash + 1) % 4)
    else ([UiUpdate.statusLightColor Color.green], (flash + 1) % 4)
  else ([UiUpdate.statusLightColor Color.green], flash)

/-- Control register 401000 readback driving the fan-button color
(lines 3513-3527). -/
def controlPart (resp : DeviceResponses) (flash : Nat) :
    List UiUpdate × Nat :=
  match resp.control with
  | some v =>
      if v = 100 then
        if (flash + 1) % 4 < 2 then
          ([UiUpdate.controlButtonColor Color.red], (flash + 1) % 4)
        else ([UiUpdate.controlButtonColor Color.darkRedD83b01], (flash + 1) % 4)
      else ([UiUpdate.controlButtonColor Color.blue0078d4], flash)
  | none => ([], flash)

/-- Operations-data checks that set has_red_params (lines 3529-3569):
rpm < 1200, envolts state not equal to 5, either oil-rate float below
34, or gas psi below 100; every failed read contributes false. -/
def hasRedParams (resp : DeviceResponses) : Bool :=
  (match resp.rpm with | some v => decide (v < 1200) | none => false) ||
  (match resp.envolts with | some v => decide (v ≠ 5) | none => false) ||
  (match resp.peOil with
    | some p => f32LtNat (decodeFloat32BE p.1 p.2) 34
    | none => false) ||
  (match resp.gbOil with
    | some p => f32LtNat (decodeFloat32BE p.1 p.2) 34
    | none => false) ||
  (match resp.gasPsi with | some v => decide (v < 100) | none => false)

/-- Frame background flashing and acknowledgment handling
(lines 3571-3587).  Returns the updates, the new bg_flash_state and the
new alert_acknowledged flag. -/
def framePart (resp : DeviceResponses) (st : WorkerState) :
    List UiUpdate × Bool × Bool :=
  if hasRedParams resp then
    if st.acknowledged then
      ([UiUpdate.frameColor Color.maroon800000], st.bgFlashState,
        st.acknowledged)
    else
      if !st.bgFlashState then
        ([UiUpdate.frameColor Color.redFF0000], !st.bgFlashState,
          st.acknowledged)
      else
        ([UiUpdate.frameColor Color.dark2D2D2D], !st.bgFlashState,
          st.acknowledged)
  else ([UiUpdate.frameColor Color.dark2D2D2D], st.bgFlashState, false)

/-- Display resets performed by the per-cycle except handler
(lines 3588-3597). -/
def exceptResets : List UiUpdate :=
  [UiUpdate.turboUnknown, UiUpdate.batteryUnknown, UiUpdate.setpointUnknown,
   UiUpdate.statusLightColor Color.gray,
   UiUpdate.controlButtonColor Color.blue0078d4]

/-- Remainder of a 230xx cycle after the auto-control block: plc status,
control readback, operations checks and frame flashing, assembled into
the cycle result. -/
def cycleTail (resp : DeviceResponses) (st : WorkerState)
    (turboVar : Option Nat) (flash : Nat) (front : List UiUpdate)
    (writes : List NetOp) (newLast : ℚ) : CycleResult :=
  let pp := plcPart resp flash
  let cp := controlPart resp pp.2
  let fp := framePart resp st
  CycleResult.mk (front ++ pp.1 ++ cp.1 ++ fp.1) writes
    (WorkerState.mk turboVar cp.2 fp.2.1 newLast fp.2.2) false

/-- Embeds one full poll cycle of the 230xx branch of monitor_unit
(v5.3.1 lines 3361-3603).  If client.connect() fails, the body under
the if is skipped entirely: nothing is published, no state changes, and
the loop proceeds to the sleep.  Otherwise the cycle reads turbo,
battery and (in maintenance mode) the setpoint, then runs the
auto-control block: when auto-control is active the comparison reads
the turbo_temp local; if that local has never been bound the reference
raises NameError, which the per-cycle except handler catches, dispatching
the display resets and abandoning the rest of the cycle.  Otherwise the
cycle continues with the status, control and operations updates. -/
def monitorCycle (env : CycleEnv) (resp : DeviceResponses)
    (st : WorkerState) : CycleResult :=
  if resp.connectOk then
    let tp := turboPart resp st
    let bp := batteryPart resp st.flashCounter
    let sp := setpointPart env resp
    let front := tp.1 ++ bp.1 ++ sp
    if env.autoControlActive then
      match tp.2 with
      | none =>
          CycleResult.mk (front ++ exceptResets) []
            (WorkerState.mk none bp.2 st.bgFlashState st.lastActivation
              st.acknowledged) true
      | some tv =>
          let ac := autoControlStep env.autoControlActive env.threshold
            st.lastActivation (AutoControlInput.mk resp.time tv resp.writeOk)
          cycleTail resp st tp.2 bp.2 front ac.1 ac.2
    else cycleTail resp st tp.2 bp.2 front [] st.lastActivation
  else CycleResult.mk [] [] st false

/-- C6 (amended): in a poll cycle in which client.connect() fails, the
body under the if is skipped entirely: the poller publishes nothing (the
previously published values remain on the displays), issues no writes,
leaves the worker state unchanged, and proceeds directly to the
inter-cycle sleep without raising. -/
theorem connect_failure_publishes_nothing (env : CycleEnv)
    (resp : DeviceResponses) (st : WorkerState)
    (h : resp.connectOk = false) :
    monitorCycle env resp st = CycleResult.mk [] [] st false := by
  unfold monitorCycle
  rw [h]
  simp

/-- Witness for connect_failure_publishes_nothing at a concrete failed
cycle. -/
theorem connect_failure_publishes_nothing_witness :
    monitorCycle (CycleEnv.mk false true 1050)
        (DeviceResponses.mk false none none none 0 false none none none
          none none none none)
        (WorkerState.mk none 0 false 0 false)
      = CycleResult.mk [] [] (WorkerState.mk none 0 false 0 false) false :=
  connect_failure_publishes_nothing (CycleEnv.mk false true 1050)
    (DeviceResponses.mk false none none none 0 false none none none
      none none none none)
    (WorkerState.mk none 0 false 0 false) rfl

/-- Counterexample to C6 as stated: a concrete cycle whose connect fails
dispatches no display update at all — in particular no unknown-band
update for any metric — rather than publishing a snapshot with all
metrics in an unknown band; the previously published values stay. -/
theorem connect_failure_no_unknown_snapshot :
    (monitorCycle (CycleEnv.mk false false 1047)
        (DeviceResponses.mk false none none none 0 false none none none
          none none none none)
        (WorkerState.mk (some 900) 2 true 0 false)).updates = [] ∧
    UiUpdate.turboUnknown ∉
      (monitorCycle (CycleEnv.mk false false 1047)
        (DeviceResponses.mk false none none none 0 false none none none
          none none none none)
        (WorkerState.mk (some 900) 2 true 0 false)).updates := by
  constructor
  · rfl
  · intro hmem
    exact absurd hmem (List.not_mem_nil _)

/-- C10: in a poll cycle of a 230xx unit with auto-control active whose
turbo-temperature read fails, the trigger comparison reads the
turbo_temp local from the most recent successful read: with a stale
binding the cycle completes normally and the fan-write decision and
control-state update are computed from the stale value; with no binding
(no read has ever succeeded in this worker) the reference raises
NameError, the per-cycle except handler runs, the remainder of the
cycle's evaluation is abandoned (no status, control or frame updates,
no fan write), and the device's displays are reset. -/
theorem turbo_trigger_stale_or_error (env : CycleEnv)
    (resp : DeviceResponses) (st : WorkerState)
    (hc : resp.connectOk = true) (ha : env.autoControlActive = true)
    (ht : resp.turbo = none) :
    (∀ v, st.turboVar = some v →
      (monitorCycle env resp st).errored = false ∧
      (monitorCycle env resp st).writes =
        (autoControlStep env.autoControlActive env.threshold
          st.lastActivation
          (AutoControlInput.mk resp.time v resp.writeOk)).1 ∧
      (monitorCycle env resp st).state.lastActivation =
        (autoControlStep env.autoControlActive env.threshold
          st.lastActivation
          (AutoControlInput.mk resp.time v resp.writeOk)).2) ∧
    (st.turboVar = none →
      monitorCycle env resp st =
        CycleResult.mk
          ((batteryPart resp st.flashCounter).1 ++ setpointPart env resp
            ++ exceptResets) []
          (WorkerState.mk none (batteryPart resp st.flashCounter).2
            st.bgFlashState st.lastActivation st.acknowledged) true) := by
  constructor
  · intro v hv
    simp [monitorCycle, turboPart, cycleTail, ht, hc, ha, hv]
  · intro hnone
    simp [monitorCycle, turboPart, ht, hc, ha, hnone]

/-- Witness for turbo_trigger_stale_or_error: a worker whose turbo read
has never succeeded, with auto-control active, errors the cycle and
issues no fan write. -/
theorem turbo_trigger_stale_or_error_witness :
    (monitorCycle (CycleEnv.mk false true 1050)
        (DeviceResponses.mk true none none none 0 false none none none
          none none none none)
        (WorkerState.mk none 0 false 0 false)).errored = true ∧
    (monitorCycle (CycleEnv.mk false true 1050)
        (DeviceResponses.mk true none none none 0 false none none none
          none none none none)
        (WorkerState.mk none 0 false 0 false)).writes = [] := by
  have h := turbo_trigger_stale_or_error (CycleEnv.mk false true 1050)
    (DeviceResponses.mk true none none none 0 false none none none
      none none none none)
    (WorkerState.mk none 0 false 0 false) rfl rfl rfl
  have hb := h.2 rfl
  rw [hb]
  exact ⟨rfl, rfl⟩

/-- Modelled from the spec: pack a 32-bit pattern into the (hi, lo)
16-bit register pair of its big-endian representation (the inverse of
the shift-or the decoder applies). -/
def encodeBits (b : Nat) : Nat × Nat := (b / 65536, b % 65536)

/-- Modelled from the spec: bit pattern of the standard IEEE-754
binary32 encoding of a finite nonzero value given by sign and magnitude.
With n = mag * 2^149: a representable subnormal has integer n < 2^23
and fraction field n; a representable normal value has integer
n = (2^23 + f) * 2^(e-1), from which the exponent field is
recovered as log2 n - 22 and the fraction field by dividing out
2^(e-1).  On magnitudes that are not representable the result is
unspecified garbage; the round-trip theorem only applies it to decoded
magnitudes. -/
def encodeFin (neg : Bool) (mag : ℚ) : Nat :=
  if mag * 2 ^ 149 < 2 ^ 23 then
    (if neg then 1 else 0) * 2 ^ 31 + (mag * 2 ^ 149).num.toNat
  else
    (if neg then 1 else 0) * 2 ^ 31
      + ((mag * 2 ^ 149).num.toNat.log2 - 22) * 2 ^ 23
      + ((mag * 2 ^ 149).num.toNat
          / 2 ^ ((mag * 2 ^ 149).num.toNat.log2 - 22 - 1) - 2 ^ 23)

/-- Modelled from the spec: encodeFloat32BE, the standard IEEE-754
binary32 big-endian encoder posited by the testable-properties section
of the spec (the repository itself contains no encoder).  A NaN value
carries no payload, so the encoder emits the canonical quiet NaN
pattern 0x7FC00000. -/
def encodeFloat32BE : F32 → Nat × Nat
  | F32.nan => encodeBits (255 * 2 ^ 23 + 2 ^ 22)
  | F32.inf neg => encodeBits ((if neg then 1 else 0) * 2 ^ 31 + 255 * 2 ^ 23)
  | F32.zero neg => encodeBits ((if neg then 1 else 0) * 2 ^ 31)
  | F32.finite neg mag => encodeBits (encodeFin neg mag)

/-- Sign-bit arithmetic: the encoder's sign test inverts the decoder's. -/
theorem signBit_if (s : Nat) (hs : s ≤ 1) :
    (if decide (s = 1) = true then (1 : Nat) else 0) = s := by
  by_cases h : s = 1
  · simp [h]
  · simp [h]
    omega

/-- Round trip on raw 32-bit patterns: decoding any non-NaN pattern and
re-encoding it restores the pattern, packed as a register pair. -/
theorem decodeBits_roundtrip (b : Nat) (hb : b < 2 ^ 32)
    (hnan : decodeBits b ≠ F32.nan) :
    encodeFloat32BE (decodeBits b) = encodeBits b := by
  have hs : sOfBits b ≤ 1 := by unfold sOfBits; omega
  have hf : fOfBits b < 2 ^ 23 := by unfold fOfBits; omega
  have hrec : b = sOfBits b * 2 ^ 31 + eOfBits b * 2 ^ 23 + fOfBits b := by
    unfold sOfBits eOfBits fOfBits
    omega
  by_cases he255 : eOfBits b = 255
  · by_cases hf0 : fOfBits b = 0
    · unfold decodeBits
      rw [if_pos he255, if_pos hf0]
      show encodeBits ((if decide (sOfBits b = 1) = true then 1 else 0) * 2 ^ 31
        + 255 * 2 ^ 23) = encodeBits b
      rw [signBit_if (sOfBits b) hs]
      congr 1
      omega
    · exfalso
      apply hnan
      unfold decodeBits
      rw [if_pos he255, if_neg hf0]
  · by_cases he0 : eOfBits b = 0
    · by_cases hf0 : fOfBits b = 0
      · unfold decodeBits
        rw [if_neg he255, if_pos he0, if_pos hf0]
        show encodeBits
          ((if decide (sOfBits b = 1) = true then 1 else 0) * 2 ^ 31)
          = encodeBits b
        rw [signBit_if (sOfBits b) hs]
        congr 1
        omega
      · unfold decodeBits
        rw [if_neg he255, if_pos he0, if_neg hf0]
        show encodeBits (encodeFin (decide (sOfBits b = 1))
          ((fOfBits b : ℚ) / 2 ^ 149)) = encodeBits b
        unfold encodeFin
        have hcancel : (fOfBits b : ℚ) / 2 ^ 149 * 2 ^ 149 = (fOfBits b : ℚ) :=
          div_mul_cancel₀ _ (by positivity)
        rw [hcancel]
        rw [if_pos (by exact_mod_cast hf : ((fOfBits b : ℚ)) < 2 ^ 23)]
        rw [Rat.num_natCast, Int.toNat_natCast]
        rw [signBit_if (sOfBits b) hs]
        congr 1
        omega
    · have he1 : 1 ≤ eOfBits b := by omega
      unfold decodeBits
      rw [if_neg he255, if_neg he0]
      show encodeBits (encodeFin (decide (sOfBits b = 1))
        (((2 ^ 23 + fOfBits b : Nat) : ℚ) * 2 ^ eOfBits b / 2 ^ 150))
        = encodeBits b
      unfold encodeFin
      have hmagn : (((2 ^ 23 + fOfBits b : Nat) : ℚ) * 2 ^ eOfBits b / 2 ^ 150)
          * 2 ^ 149
          = (((2 ^ 23 + fOfBits b) * 2 ^ (eOfBits b - 1) : Nat) : ℚ) := by
        have h2 : (2 : ℚ) ^ eOfBits b = 2 ^ (eOfBits b - 1) * 2 := by
          rw [← pow_succ]
          congr 1
          omega
        push_cast
        rw [h2]
        field_simp
        ring
      rw [hmagn]
      have hm_lb : 2 ^ 23 ≤ (2 ^ 23 + fOfBits b) * 2 ^ (eOfBits b - 1) := by
        calc (2 : Nat) ^ 23 = 2 ^ 23 * 1 := by ring
          _ ≤ (2 ^ 23 + fOfBits b) * 2 ^ (eOfBits b - 1) :=
            Nat.mul_le_mul (by omega) (Nat.two_pow_pos _)
      rw [if_neg (by exact_mod_cast not_lt.2 hm_lb :
        ¬ ((((2 ^ 23 + fOfBits b) * 2 ^ (eOfBits b - 1) : Nat) : ℚ) < 2 ^ 23))]
      rw [Rat.num_natCast, Int.toNat_natCast]
      have hlog : Nat.log2 ((2 ^ 23 + fOfBits b) * 2 ^ (eOfBits b - 1))
          = eOfBits b + 22 := by
        rw [Nat.log2_eq_log_two]
        apply Nat.log_eq_of_pow_le_of_lt_pow
        · have h1 : (2 : Nat) ^ (eOfBits b + 22)
              = 2 ^ 23 * 2 ^ (eOfBits b - 1) := by
            rw [← pow_add]
            congr 1
            omega
          rw [h1]
          exact Nat.mul_le_mul_right _ (by omega)
        · have h2 : (2 : Nat) ^ (eOfBits b + 22 + 1)
              = 2 ^ 24 * 2 ^ (eOfBits b - 1) := by
            rw [← pow_add]
            congr 1
            omega
          rw [h2]
          exact (Nat.mul_lt_mul_right (Nat.two_pow_pos _)).2 (by omega)
      rw [hlog]
      have hesub : eOfBits b + 22 - 22 = eOfBits b := by omega
      rw [hesub]
      have hdiv : (2 ^ 23 + fOfBits b) * 2 ^ (eOfBits b - 1)
          / 2 ^ (eOfBits b - 1) = 2 ^ 23 + fOfBits b :=
        Nat.mul_div_cancel _ (Nat.two_pow_pos _)
      rw [hdiv]
      rw [signBit_if (sOfBits b) hs]
      have hfinal : sOfBits b * 2 ^ 31 + (eOfBits b + 22 - 22) * 2 ^ 23
          + (2 ^ 23 + fOfBits b - 2 ^ 23) = b := by omega
      rw [hesub] at hfinal
      rw [hfinal]

/-- C8 (amended): for every pair of 16-bit register words whose
big-endian 32-bit concatenation is not a NaN encoding, decoding it as an
IEEE-754 binary32 value and re-encoding that value with the standard
IEEE-754 encoder yields the original pair.  (NaN encodings cannot all
round-trip: decoding discards the payload bits and the encoder emits the
canonical quiet NaN; see the counterexample.) -/
theorem decodeFloat32BE_encode_roundtrip (hi lo : Nat) (hhi : hi < 65536)
    (hlo : lo < 65536) (hnan : decodeFloat32BE hi lo ≠ F32.nan) :
    encodeFloat32BE (decodeFloat32BE hi lo) = (hi, lo) := by
  unfold decodeFloat32BE at hnan ⊢
  rw [decodeBits_roundtrip (hi * 65536 + lo) (by omega) hnan]
  unfold encodeBits
  have h1 : (hi * 65536 + lo) / 65536 = hi := by omega
  have h2 : (hi * 65536 + lo) % 65536 = lo := by omega
  rw [h1, h2]

/-- Witness for decodeFloat32BE_encode_roundtrip: the pattern of -0.0,
register pair (0x8000, 0x0000), round-trips including its sign bit. -/
theorem decodeFloat32BE_encode_roundtrip_witness :
    decodeFloat32BE 32768 0 ≠ F32.nan ∧
      encodeFloat32BE (decodeFloat32BE 32768 0) = (32768, 0) :=
  ⟨by decide, decodeFloat32BE_encode_roundtrip 32768 0 (by decide)
    (by decide) (by decide)⟩

/-- Counterexample to C8 as stated: the register pair (0x7FC0, 0x0001)
is a NaN encoding with a nonzero payload; decoding yields the NaN value
and re-encoding yields the canonical quiet NaN pair (0x7FC0, 0x0000),
not the original pair. -/
theorem nan_payload_not_roundtripped :
    decodeFloat32BE 32704 1 = F32.nan ∧
      encodeFloat32BE (decodeFloat32BE 32704 1) = (32704, 0) ∧
      ((32704 : Nat), (0 : Nat)) ≠ ((32704 : Nat), (1 : Nat)) := by
  refine ⟨by decide, ?_, by decide⟩
  have h : decodeFloat32BE 32704 1 = F32.nan := by decide
  rw [h]
  decide

end HMI
